import Mathlib

/-!
Verification of the Happy-Quotes data-access layer (`happy_models.py`).

Python strings are modelled as `List Char`; Python `None`-able values as
`Option`; the MySQL driver's row dictionaries (`cursor(dictionary=True)`)
as association lists from column names to SQL values.  Every definition is
translated from the source file; the database server itself (an external
collaborator) is modelled by an explicit table state plus the semantics of
the exact SQL statements the source issues.
-/

/-- The character list of a string literal (Python `str` model). -/
def chars (s : String) : List Char := s.data

/-- A SQL cell value as delivered by the driver: string, integer, date or NULL. -/
inductive Val : Type where
  | s : List Char → Val
  | i : Int → Val
  | d : Nat → Nat → Nat → Val
  | null : Val
deriving DecidableEq

/-- One result row of `cursor(dictionary=True)`: an ordered dict
from column name to value. -/
abbrev Row := List (String × Val)

/-- Python dict lookup on a result row. -/
def lookupRow (r : Row) (k : String) : Option Val :=
  match r with
  | [] => none
  | (k', v) :: rest => if k' = k then some v else lookupRow rest k

/-- Case folding used to model the MySQL case-insensitive (`_ci`)
default collation under which `LIKE` comparisons run. -/
def lowerC (c : Char) : Char := c.toLower

/-- Case-insensitive character comparison (collation model). -/
def charEq (a b : Char) : Bool := lowerC a = lowerC b

/-- All suffixes of a character list, longest first. -/
def suffixes : List Char → List (List Char)
  | [] => [[]]
  | c :: ts => (c :: ts) :: suffixes ts

/-- Semantics of the MySQL `LIKE` operator, `likeMatch pattern text`:
`%` matches any (possibly empty) character sequence, `_` matches exactly one
character, `\` escapes the following character, and any other character
matches itself case-insensitively (default collation). The whole text must
be consumed. -/
def likeMatch : List Char → List Char → Bool
  | [], t => t.isEmpty
  | '%' :: ps, t => (suffixes t).any (fun t' => likeMatch ps t')
  | '_' :: ps, t =>
    match t with
    | [] => false
    | _ :: ts => likeMatch ps ts
  | '\\' :: q :: ps, t =>
    match t with
    | [] => false
    | c :: ts => charEq q c && likeMatch ps ts
  | p :: ps, t =>
    match t with
    | [] => false
    | c :: ts => charEq p c && likeMatch ps ts

/-- A pattern string is *plain* when it contains none of the `LIKE`
metacharacters `%`, `_`, `\`. -/
def plainPat (p : List Char) : Prop :=
  ∀ c ∈ p, c ≠ '%' ∧ c ≠ '_' ∧ c ≠ '\\'

instance (p : List Char) : Decidable (plainPat p) := by
  unfold plainPat; infer_instance

/-- Case-insensitive equality of strings (what `LIKE` does on a plain pattern). -/
def ciEq (a b : List Char) : Prop := a.map lowerC = b.map lowerC

instance (a b : List Char) : Decidable (ciEq a b) := by
  unfold ciEq; infer_instance

/-- `t` occurs as a contiguous slice of `s` up to letter case. -/
def ciInfix (t s : List Char) : Prop :=
  (t.map lowerC) <:+: (s.map lowerC)

lemma likeMatch_nil (t : List Char) : likeMatch [] t = t.isEmpty := by
  cases t <;> rfl

lemma likeMatch_cons_plain (p : Char) (ps : List Char) (c : Char) (ts : List Char)
    (h1 : p ≠ '%') (h2 : p ≠ '_') (h3 : p ≠ '\\') :
    likeMatch (p :: ps) (c :: ts) = (charEq p c && likeMatch ps ts) := by
  rw [likeMatch.eq_def]
  split <;> simp_all

lemma likeMatch_cons_plain_nil (p : Char) (ps : List Char)
    (h1 : p ≠ '%') (h2 : p ≠ '_') (h3 : p ≠ '\\') :
    likeMatch (p :: ps) [] = false := by
  rw [likeMatch.eq_def]
  split <;> simp_all

/-- A plain `LIKE` pattern (no metacharacters) matches exactly the strings
that are case-insensitively equal to it. -/
lemma likeMatch_plain (p : List Char) (hp : plainPat p) (t : List Char) :
    likeMatch p t = true ↔ ciEq p t := by
  induction p generalizing t with
  | nil => cases t <;> simp [likeMatch_nil, ciEq]
  | cons a ps ih =>
    obtain ⟨h1, h2, h3⟩ := hp a (List.mem_cons_self a ps)
    have hps : plainPat ps := fun c hc => hp c (List.mem_cons_of_mem a hc)
    cases t with
    | nil => simp [likeMatch_cons_plain_nil a ps h1 h2 h3, ciEq]
    | cons c ts =>
      rw [likeMatch_cons_plain a ps c ts h1 h2 h3]
      constructor
      · intro h
        obtain ⟨hc, hrest⟩ := (Bool.and_eq_true _ _).mp h
        have hc' : lowerC a = lowerC c := by simpa [charEq] using hc
        have := (ih hps ts).mp hrest
        simpa [ciEq, hc'] using this
      · intro h
        simp only [ciEq, List.map_cons, List.cons.injEq] at h
        exact (Bool.and_eq_true _ _).mpr ⟨by simp [charEq, h.1], (ih hps ts).mpr h.2⟩

lemma mem_suffixes (s t : List Char) : t ∈ suffixes s ↔ t <:+ s := by
  induction s with
  | nil => simp [suffixes, List.suffix_nil]
  | cons c ss ih =>
    simp only [suffixes, List.mem_cons, ih]
    constructor
    · rintro (rfl | h)
      · exact List.suffix_refl _
      · exact h.trans (List.suffix_cons c ss)
    · intro h
      rcases h with ⟨pre, hpre⟩
      cases pre with
      | nil => left; simpa using hpre
      | cons x xs => right; exact ⟨xs, by simpa using congrArg List.tail hpre⟩

lemma likeMatch_pct (ps t : List Char) :
    likeMatch ('%' :: ps) t = true ↔ ∃ t', t' <:+ t ∧ likeMatch ps t' = true := by
  show ((suffixes t).any fun t' => likeMatch ps t') = true ↔ _
  simp only [List.any_eq_true, mem_suffixes]

/-- A plain pattern followed by a single `%` matches exactly the strings
having a case-insensitive copy of the pattern as a prefix. -/
lemma likeMatch_plain_pct (t : List Char) (hp : plainPat t) (s : List Char) :
    likeMatch (t ++ ['%']) s = true ↔ ∃ a b, s = a ++ b ∧ ciEq t a := by
  induction t generalizing s with
  | nil =>
    simp only [List.nil_append]
    rw [likeMatch_pct]
    constructor
    · intro _; exact ⟨[], s, rfl, rfl⟩
    · intro _; exact ⟨[], List.nil_suffix, rfl⟩
  | cons a ts ih =>
    obtain ⟨h1, h2, h3⟩ := hp a (List.mem_cons_self a ts)
    have hts : plainPat ts := fun c hc => hp c (List.mem_cons_of_mem a hc)
    cases s with
    | nil =>
      rw [List.cons_append, likeMatch_cons_plain_nil _ _ h1 h2 h3]
      simp only [Bool.false_eq_true, false_iff]
      rintro ⟨x, b, hx, hci⟩
      have : x.map lowerC ≠ [] := by
        rw [← hci]; simp
      cases x with
      | nil => exact this rfl
      | cons _ _ => simp at hx
    | cons c ss =>
      rw [List.cons_append, likeMatch_cons_plain _ _ _ _ h1 h2 h3, Bool.and_eq_true]
      rw [ih hts]
      constructor
      · rintro ⟨hc, x, b, rfl, hci⟩
        refine ⟨c :: x, b, rfl, ?_⟩
        simp only [ciEq, List.map_cons, List.cons.injEq] at hci ⊢
        exact ⟨by simpa [charEq] using hc, hci⟩
      · rintro ⟨x, b, hx, hci⟩
        cases x with
        | nil =>
          exfalso
          have : (a :: ts).map lowerC = [] := hci
          simp at this
        | cons x0 xs =>
          simp only [List.cons_append, List.cons.injEq] at hx
          obtain ⟨rfl, rfl⟩ := hx
          simp only [ciEq, List.map_cons, List.cons.injEq] at hci
          exact ⟨by simp [charEq, hci.1], xs, b, rfl, hci.2⟩

/-- The pattern `'%' ++ t ++ '%'` built by the tag query matches exactly the
strings containing `t` as a case-insensitive contiguous slice. -/
lemma likeMatch_wrap (t : List Char) (hp : plainPat t) (s : List Char) :
    likeMatch ('%' :: (t ++ ['%'])) s = true ↔ ciInfix t s := by
  rw [likeMatch_pct]
  constructor
  · rintro ⟨t', ⟨pre, rfl⟩, hm⟩
    obtain ⟨a, b, rfl, hci⟩ := (likeMatch_plain_pct t hp t').mp hm
    exact ⟨pre.map lowerC, b.map lowerC, by simp [ciEq] at hci; simp [hci]⟩
  · rintro ⟨u, v, huv⟩
    obtain ⟨pre, rest, hs, hpre, hrest⟩ :=
      List.append_eq_map_iff.mp ((by simpa using huv) : u ++ (t.map lowerC ++ v) = s.map lowerC)
    obtain ⟨a, b, hrest2, ha, hb⟩ := List.append_eq_map_iff.mp hrest.symm
    refine ⟨rest, ⟨pre, hs.symm ▸ rfl⟩, ?_⟩
    rw [likeMatch_plain_pct t hp]
    exact ⟨a, b, hrest2, by simp [ciEq, ha]⟩

/-- The tag separator `", "`: `', '.join(...)` in `Quote.db_save` /
`Metadata.db_save`, `.split(', ')` on the consuming (GUI) side. -/
def sepCS : List Char := [',', ' ']

/-- Python `', '.join(tags)` (`Quote.db_save` line `', '.join(self.tags)`). -/
def joinTags : List (List Char) → List Char
  | [] => []
  | [t] => t
  | t :: u :: ts => t ++ sepCS ++ joinTags (u :: ts)

/-- Prepend a character to the first chunk of a split result. -/
def consHead (c : Char) : List (List Char) → List (List Char)
  | [] => [[c]]
  | p :: ps => (c :: p) :: ps

/-- Python `s.split(', ')`: cut at each leftmost non-overlapping occurrence
of `", "`; splitting the empty string yields `[""]`. -/
def splitCS : List Char → List (List Char)
  | [] => [[]]
  | ',' :: ' ' :: rest => [] :: splitCS rest
  | c :: rest => consHead c (splitCS rest)

lemma splitCS_cons_not_sep (c : Char) (rest : List Char)
    (h : ∀ rest', c = ',' → rest = ' ' :: rest' → False) :
    splitCS (c :: rest) = consHead c (splitCS rest) := by
  rw [splitCS.eq_def]
  split <;> simp_all

lemma splitCS_ne_nil (s : List Char) : splitCS s ≠ [] := by
  induction s using splitCS.induct with
  | case1 => simp [splitCS]
  | case2 rest ih => simp [splitCS]
  | case3 c rest h ih =>
    rw [splitCS_cons_not_sep c rest h]
    cases hs : splitCS rest <;> simp [consHead]

lemma splitCS_head_prefix (s : List Char) (p : List Char) (ps : List (List Char))
    (h : splitCS s = p :: ps) : p <+: s := by
  induction s using splitCS.induct generalizing p ps with
  | case1 =>
    simp [splitCS] at h
    simp [h.1]
  | case2 rest ih =>
    simp [splitCS] at h
    simp [h.1]
  | case3 c rest hg ih =>
    rw [splitCS_cons_not_sep c rest hg] at h
    cases hs : splitCS rest with
    | nil => exact absurd hs (splitCS_ne_nil rest)
    | cons q qs =>
      rw [hs] at h
      simp only [consHead, List.cons.injEq] at h
      obtain ⟨rfl, rfl⟩ := h
      obtain ⟨r2, hr2⟩ := ih q qs hs
      exact ⟨r2, by simp [hr2]⟩

lemma splitCS_no_sep (s : List Char) : ∀ t ∈ splitCS s, ¬ sepCS <:+: t := by
  induction s using splitCS.induct with
  | case1 =>
    intro t ht
    simp [splitCS] at ht
    simp [ht, sepCS]
  | case2 rest ih =>
    intro t ht
    simp only [splitCS, List.mem_cons] at ht
    rcases ht with rfl | ht
    · simp [sepCS]
    · exact ih t ht
  | case3 c rest hg ih =>
    intro t ht
    rw [splitCS_cons_not_sep c rest hg] at ht
    cases hs : splitCS rest with
    | nil => exact absurd hs (splitCS_ne_nil rest)
    | cons q qs =>
      rw [hs] at ht
      simp only [consHead, List.mem_cons] at ht
      rcases ht with rfl | ht
      · intro hinf
        rcases List.infix_cons_iff.mp hinf with hpre | hinf'
        · have hq : q ∈ splitCS rest := by rw [hs]; exact List.mem_cons_self _ _
          obtain ⟨r, hr⟩ := hpre
          simp only [sepCS] at hr
          have hc : c = ',' := by
            have := congrArg (List.head? ·) hr
            simpa using this.symm
          have hqtail : q = ' ' :: (r) := by
            have := congrArg (List.tail ·) hr
            simpa using this.symm
          have hqpre : q <+: rest := by
            have := splitCS_head_prefix rest q qs hs
            exact this
          obtain ⟨r2, hr2⟩ := hqpre
          exact hg (r ++ r2) hc (by rw [← hr2, hqtail]; simp)
        · exact ih q (by rw [hs]; exact List.mem_cons_self _ _) hinf'
      · exact ih t (by rw [hs]; exact List.mem_cons_of_mem _ ht)

lemma splitCS_of_no_sep (t : List Char) (h : ¬ sepCS <:+: t) : splitCS t = [t] := by
  induction t using splitCS.induct with
  | case1 => rfl
  | case2 rest ih =>
    exact absurd ⟨[], rest, rfl⟩ h
  | case3 c rest hg ih =>
    rw [splitCS_cons_not_sep c rest hg,
        ih (fun hi => h (List.infix_cons_iff.mpr (Or.inr hi)))]
    rfl

lemma splitCS_join_step (t s : List Char) (h : ¬ sepCS <:+: t) :
    splitCS (t ++ (sepCS ++ s)) = t :: splitCS s := by
  induction t with
  | nil => simp [sepCS, splitCS]
  | cons c t' ih =>
    have h' : ¬ sepCS <:+: t' := fun hi => h (List.infix_cons_iff.mpr (Or.inr hi))
    rw [List.cons_append, splitCS_cons_not_sep]
    · rw [ih h']
      rfl
    · intro rest' hc hr
      cases t' with
      | nil =>
        simp [sepCS] at hr
      | cons d t'' =>
        simp only [List.cons_append] at hr
        have hd : d = ' ' := by
          have := congrArg (List.head? ·) hr
          simpa using this
        exact h (List.infix_cons_iff.mpr (Or.inl ⟨t'', by simp [sepCS, hc, hd]⟩))

/-- Round-trip of the tag encoding: splitting the joined string recovers the
original list exactly when the list is non-empty and no element contains the
separator `", "`. -/
lemma splitCS_joinTags (L : List (List Char)) :
    splitCS (joinTags L) = L ↔ (L ≠ [] ∧ ∀ t ∈ L, ¬ sepCS <:+: t) := by
  constructor
  · intro h
    constructor
    · intro hL
      rw [hL] at h
      exact splitCS_ne_nil (joinTags []) (by simpa [joinTags] using h)
    · intro t ht
      rw [← h] at ht
      exact splitCS_no_sep _ t ht
  · rintro ⟨hne, hels⟩
    induction L with
    | nil => exact absurd rfl hne
    | cons t L' ih =>
      cases L' with
      | nil =>
        simpa [joinTags] using splitCS_of_no_sep t (hels t (List.mem_cons_self _ _))
      | cons u L'' =>
        have hstep := splitCS_join_step t (joinTags (u :: L''))
          (hels t (List.mem_cons_self _ _))
        rw [joinTags, List.append_assoc, hstep,
          ih (by simp) (fun x hx => hels x (List.mem_cons_of_mem _ hx))]

/-- Outcome of one statement inside the MySQL driver: either the
driver-level result or a raised `mysql.connector.Error` (with its message). -/
inductive DriverResult (α : Type) : Type where
  | ok : α → DriverResult α
  | err : List Char → DriverResult α
deriving DecidableEq

/-- `MySQLDB.sql_execute(sql, val)`: runs one INSERT/UPDATE/DELETE and
returns `(cursor.rowcount, cursor.lastrowid)`.  The `except Error` clause
catches every driver-level error, prints a diagnostic and returns
`(None, None)`; being a total function of the driver outcome, it never
propagates an exception. -/
def sql_execute (sql : List Char) (val : List Val)
    (d : DriverResult (Int × Int)) : Option Int × Option Int :=
  match d with
  | .ok (rowcount, lastrowid) => (some rowcount, some lastrowid)
  | .err _ => (none, none)

/-- `MySQLDB.sql_query(sql, val)`: runs one SELECT and returns
`cursor.fetchall()` (a list of dict rows).  The `except Error` clause
catches every driver-level error, prints a diagnostic and returns `None`;
it never propagates an exception. -/
def sql_query (sql : List Char) (val : List Val)
    (d : DriverResult (List Row)) : Option (List Row) :=
  match d with
  | .ok results => some results
  | .err _ => none

/-- Python truthiness of an `Optional[int]` (`if lastrowid:`):
`None` and `0` are falsy, every other integer is truthy. -/
def truthyOptInt : Option Int → Bool
  | none => false
  | some n => n != 0

/-- Python truthiness of an `Optional[bool]` result
(`None` and `False` falsy). -/
def truthy : Option Bool → Bool
  | none => false
  | some b => b

/-- A Python `datetime.date` value (already a valid calendar date). -/
structure PyDate where
  year : Nat
  month : Nat
  day : Nat
deriving DecidableEq

/-- Pydantic `Optional[PositiveInt]`: `None` is accepted, an integer must
be strictly positive. -/
def posOk : Option Int → Bool
  | none => true
  | some n => 0 < n

/-- Split a character list at every occurrence of a single character. -/
def splitOnChar (sep : Char) : List Char → List (List Char)
  | [] => [[]]
  | c :: rest => if c = sep then [] :: splitOnChar sep rest else consHead c (splitOnChar sep rest)

/-- Models the external `EmailStr` validator (the email-validator library,
not repository code): a single `@` separating a non-empty local part from a
non-empty domain that contains a dot. -/
def emailOk (e : List Char) : Bool :=
  match splitOnChar '@' e with
  | [lp, dp] => !lp.isEmpty && !dp.isEmpty && dp.contains '.'
  | _ => false

/-- Pydantic model `Quote(BaseModel)`:
`id_quote: Optional[PositiveInt]`, `content: str`,
`author_id: Optional[PositiveInt]`, `tags: List[str]`. -/
structure Quote where
  id_quote : Option Int
  content : List Char
  author_id : Option Int
  tags : List (List Char)
deriving DecidableEq

/-- Pydantic model `Author(BaseModel)`. -/
structure Author where
  id_author : Option Int
  name : List Char
  birth_date : PyDate
  birth_city : Option (List Char)
  birth_state : Option (List Char)
  birth_country : Option (List Char)
  description : List Char
deriving DecidableEq

/-- Pydantic model `Comment(BaseModel)`:
`id_comment: Optional[PositiveInt]`, `quote_id: PositiveInt`,
`title: str`, `details: str`, `user_email: EmailStr`. -/
structure Comment where
  id_comment : Option Int
  quote_id : Int
  title : List Char
  details : List Char
  user_email : List Char
deriving DecidableEq

/-- Pydantic model `Metadata(BaseModel)`. -/
structure Metadata where
  id_key : Option Int
  key_name : List Char
  key_value : List (List Char)
deriving DecidableEq

/-- Pydantic construction of a `Quote`: the only declared constraints are
the two `Optional[PositiveInt]` ids; `str`/`List[str]` fields accept any
value, the empty string included. -/
def Quote.construct (id_quote : Option Int) (content : List Char)
    (author_id : Option Int) (tags : List (List Char)) : Option Quote :=
  if posOk id_quote && posOk author_id then
    some ⟨id_quote, content, author_id, tags⟩
  else none

/-- Pydantic construction of an `Author`: only `id_author` is constrained
(`Optional[PositiveInt]`). -/
def Author.construct (id_author : Option Int) (name : List Char)
    (birth_date : PyDate) (birth_city birth_state birth_country : Option (List Char))
    (description : List Char) : Option Author :=
  if posOk id_author then
    some ⟨id_author, name, birth_date, birth_city, birth_state, birth_country, description⟩
  else none

/-- Pydantic construction of a `Comment`: `id_comment` optional-positive,
`quote_id` required positive, `user_email` must pass the email validator;
`title`/`details` accept any string. -/
def Comment.construct (id_comment : Option Int) (quote_id : Int)
    (title details user_email : List Char) : Option Comment :=
  if posOk id_comment && posOk (some quote_id) && emailOk user_email then
    some ⟨id_comment, quote_id, title, details, user_email⟩
  else none

/-- Pydantic construction of a `Metadata`: only `id_key` is constrained. -/
def Metadata.construct (id_key : Option Int) (key_name : List Char)
    (key_value : List (List Char)) : Option Metadata :=
  if posOk id_key then some ⟨id_key, key_name, key_value⟩ else none

/-- A nullable int parameter as sent to the driver. -/
def optIntVal : Option Int → Val
  | none => .null
  | some n => .i n

/-- A nullable string parameter as sent to the driver. -/
def optStrVal : Option (List Char) → Val
  | none => .null
  | some s => .s s

/-- `Quote.db_save`: builds the fixed INSERT, serializes `tags` with
`', '.join`, delegates to `sql_execute`, and runs
`if lastrowid: self.id_quote = lastrowid`.  Returns the (possibly mutated)
record together with the `(rowcount, lastrowid)` pair. -/
def Quote.db_save (q : Quote) (d : DriverResult (Int × Int)) :
    Quote × (Option Int × Option Int) :=
  let res := sql_execute
    (chars "INSERT INTO quote (content, author_id, tags) VALUES (%s, %s, %s)")
    [Val.s q.content, optIntVal q.author_id, Val.s (joinTags q.tags)] d
  (if truthyOptInt res.2 then { q with id_quote := res.2 } else q, res)

/-- `Author.db_save`: fixed INSERT, then `if lastrowid: self.id_author = lastrowid`. -/
def Author.db_save (a : Author) (d : DriverResult (Int × Int)) :
    Author × (Option Int × Option Int) :=
  let res := sql_execute
    (chars "INSERT INTO author (name, birth_date, birth_city, birth_state, birth_country, description) VALUES (%s, %s, %s, %s, %s, %s)")
    [Val.s a.name, Val.d a.birth_date.year a.birth_date.month a.birth_date.day,
     optStrVal a.birth_city, optStrVal a.birth_state, optStrVal a.birth_country,
     Val.s a.description] d
  (if truthyOptInt res.2 then { a with id_author := res.2 } else a, res)

/-- `Comment.db_save`: fixed INSERT, then `if lastrowid: self.id_comment = lastrowid`. -/
def Comment.db_save (c : Comment) (d : DriverResult (Int × Int)) :
    Comment × (Option Int × Option Int) :=
  let res := sql_execute
    (chars "INSERT INTO comment (quote_id, title, details, user_email) VALUES (%s, %s, %s, %s)")
    [Val.i c.quote_id, Val.s c.title, Val.s c.details, Val.s c.user_email] d
  (if truthyOptInt res.2 then { c with id_comment := res.2 } else c, res)

/-- `Metadata.db_save`: fixed INSERT with `', '.join(self.key_value)`,
then `if lastrowid: self.id_key = lastrowid`. -/
def Metadata.db_save (m : Metadata) (d : DriverResult (Int × Int)) :
    Metadata × (Option Int × Option Int) :=
  let res := sql_execute
    (chars "INSERT INTO metadata (key_name, key_value) VALUES (%s, %s)")
    [Val.s m.key_name, Val.s (joinTags m.key_value)] d
  (if truthyOptInt res.2 then { m with id_key := res.2 } else m, res)

/-- One row of the `quote` table
(`quote(id_quote PK, content, author_id FK, tags)`). -/
structure QuoteRow where
  id_quote : Int
  content : List Char
  author_id : Option Int
  tags : List Char
deriving DecidableEq

/-- One row of the `author` table. -/
structure AuthorRow where
  id_author : Int
  name : List Char
  birth_date : PyDate
  birth_city : Option (List Char)
  birth_state : Option (List Char)
  birth_country : Option (List Char)
  description : List Char
deriving DecidableEq

/-- One row of the `comment` table. -/
structure CommentRow where
  id_comment : Int
  quote_id : Int
  title : List Char
  details : List Char
  user_email : List Char
deriving DecidableEq

/-- One row of the `metadata` table. -/
structure MetadataRow where
  id_key : Int
  key_name : List Char
  key_value : List Char
deriving DecidableEq

/-- The observable state behind a `MySQLDB` connection manager: the four
tables of the target database, plus whether opening/using a connection
currently raises a driver `Error` (e.g. unreachable host, bad credentials). -/
structure MySQLDB where
  quotes : List QuoteRow
  authors : List AuthorRow
  comments : List CommentRow
  metadata : List MetadataRow
  connFail : Bool
deriving DecidableEq

/-- Route one SELECT through `sql_query`: the driver raises on connection
failure, otherwise it delivers the rows the engine computes for the
statement. -/
def MySQLDB.runSelect (db : MySQLDB) (sql : List Char) (val : List Val)
    (rows : List Row) : Option (List Row) :=
  sql_query sql val
    (if db.connFail then .err (chars "connection error") else .ok rows)

/-- `FROM quote q JOIN author a ON q.author_id = a.id_author`:
every quote/author pair satisfying the join condition. -/
def quoteAuthorPairs (db : MySQLDB) : List (QuoteRow × AuthorRow) :=
  db.quotes.flatMap fun q =>
    db.authors.filterMap fun a =>
      if q.author_id = some a.id_author then some (q, a) else none

/-- The projection `q.content AS content, a.name AS author_name,
q.tags AS tags` used by every quote query. -/
def qaRow (q : QuoteRow) (a : AuthorRow) : Row :=
  [("content", .s q.content), ("author_name", .s a.name), ("tags", .s q.tags)]

/-- The joined quote/author projection with no WHERE clause. -/
def quoteAuthorRows (db : MySQLDB) : List Row :=
  (quoteAuthorPairs db).map fun p => qaRow p.1 p.2

/-- `Quote.fetch_all`: SELECT of the joined projection. -/
def Quote.fetch_all (db : MySQLDB) : Option (List Row) :=
  db.runSelect
    (chars "SELECT q.content AS content, a.name AS author_name, q.tags AS tags FROM quote q JOIN author a ON q.author_id = a.id_author")
    [] (quoteAuthorRows db)

/-- `Quote.fetch_by_id`: joined projection `WHERE q.id_quote = %s`. -/
def Quote.fetch_by_id (db : MySQLDB) (quote_id : Int) : Option (List Row) :=
  db.runSelect
    (chars "SELECT q.content AS content, a.name AS author_name, q.tags AS tags FROM quote q JOIN author a ON q.author_id = a.id_author WHERE q.id_quote = %s")
    [.i quote_id]
    ((quoteAuthorPairs db).filterMap fun p =>
      if p.1.id_quote = quote_id then some (qaRow p.1 p.2) else none)

/-- `Quote.fetch_by_tag`: joined projection `WHERE q.tags LIKE %s` with the
parameter `"%" + tag + "%"` built in Python. -/
def Quote.fetch_by_tag (db : MySQLDB) (tag : List Char) : Option (List Row) :=
  db.runSelect
    (chars "SELECT q.content AS content, a.name AS author_name, q.tags AS tags FROM quote q JOIN author a ON q.author_id = a.id_author WHERE q.tags LIKE %s")
    [.s ('%' :: (tag ++ ['%']))]
    ((quoteAuthorPairs db).filterMap fun p =>
      if likeMatch ('%' :: (tag ++ ['%'])) p.1.tags then some (qaRow p.1 p.2) else none)

/-- `Quote.fetch_by_author`: joined projection `WHERE a.name LIKE %s`; the
author name is passed through verbatim — no `%` wildcards are added. -/
def Quote.fetch_by_author (db : MySQLDB) (author_name : List Char) : Option (List Row) :=
  db.runSelect
    (chars "SELECT q.content AS content, a.name AS author_name, q.tags AS tags FROM quote q JOIN author a ON q.author_id = a.id_author WHERE a.name LIKE %s")
    [.s author_name]
    ((quoteAuthorPairs db).filterMap fun p =>
      if likeMatch author_name p.2.name then some (qaRow p.1 p.2) else none)

/-- The `author` projection used by `Author.fetch_*`. -/
def authorRow (a : AuthorRow) : Row :=
  [("name", .s a.name),
   ("birth_date", .d a.birth_date.year a.birth_date.month a.birth_date.day),
   ("birth_city", optStrVal a.birth_city),
   ("birth_state", optStrVal a.birth_state),
   ("birth_country", optStrVal a.birth_country),
   ("description", .s a.description)]

/-- `Author.fetch_by_name`: `WHERE name LIKE %s`, no wildcards added. -/
def Author.fetch_by_name (db : MySQLDB) (author_name : List Char) : Option (List Row) :=
  db.runSelect
    (chars "SELECT name, birth_date, birth_city, birth_state, birth_country, description FROM author WHERE name LIKE %s")
    [.s author_name]
    (db.authors.filterMap fun a =>
      if likeMatch author_name a.name then some (authorRow a) else none)

/-- The `comment` projection `title, details, user_email`. -/
def commentRow (c : CommentRow) : Row :=
  [("title", .s c.title), ("details", .s c.details), ("user_email", .s c.user_email)]

/-- `Comment.fetch_by_quote_id`: `WHERE quote_id = %s`. -/
def Comment.fetch_by_quote_id (db : MySQLDB) (quote_id : Int) : Option (List Row) :=
  db.runSelect
    (chars "SELECT title, details, user_email FROM comment WHERE quote_id = %s")
    [.i quote_id]
    (db.comments.filterMap fun c =>
      if c.quote_id = quote_id then some (commentRow c) else none)

/-- `Metadata.fetch_by_key_name`: `WHERE key_name = %s` (string equality
under the case-insensitive default collation). -/
def Metadata.fetch_by_key_name (db : MySQLDB) (key_name : List Char) : Option (List Row) :=
  db.runSelect
    (chars "SELECT key_value FROM metadata WHERE key_name = %s")
    [.s key_name]
    (db.metadata.filterMap fun m =>
      if ciEq m.key_name key_name then some [("key_value", Val.s m.key_value)] else none)

/-- `MySQLDB.create_database(overwrite)`: connect, `SHOW DATABASES LIKE`,
then branch.  `dbExists` is the server state, `failEarly` a driver error up
to and including the existence check, `failLate` one during DROP/CREATE.
Python `True/False` become `some true/false`; a bare `return` would be
`none` (this function has none). -/
def create_database (dbExists overwrite : Bool) (failEarly failLate : Bool) : Option Bool :=
  if failEarly then some false
  else if dbExists && !overwrite then some true
  else if failLate then some false
  else some true

/-- `MySQLDB.create_table(table_name, sql_code, overwrite)`: connect,
`SHOW TABLES LIKE`, then branch.  In the already-exists-and-no-overwrite
branch the source executes a bare `return`, i.e. Python `None`. -/
def create_table (table_name sql_code : List Char) (tableExists overwrite : Bool)
    (failEarly failLate : Bool) : Option Bool :=
  if failEarly then some false
  else if tableExists && !overwrite then none
  else if failLate then some false
  else some true

/-- A Python exception escaping `run_model`. -/
inductive PyErr : Type where
  | typeError : PyErr
  | indexError : PyErr
  | keyError : PyErr
deriving DecidableEq

/-- What `run_model` hands back to the GUI: one result list (possibly the
`None` failure sentinel), or the 2-tuple returned by
`comments_random_quote`. -/
inductive RunOut : Type where
  | single : Option (List Row) → RunOut
  | pair : Option (List Row) → Option (List Row) → RunOut
deriving DecidableEq

/-- The server-side `ORDER BY RAND()` as an explicit reordering oracle: the
random order the engine picked, given as a list of indices into the result
set. Theorems assume it is a permutation of the valid indices. -/
def applyPerm {α : Type} (perm : List Nat) (xs : List α) : List α :=
  perm.filterMap fun i => xs[i]?

/-- Group keys in first-appearance order (`GROUP BY a.name`). -/
def firstOccur (seen : List (List Char)) : List (List Char) → List (List Char)
  | [] => []
  | x :: xs => if x ∈ seen then firstOccur seen xs else x :: firstOccur (x :: seen) xs

/-- Insert into a list sorted by descending count (stable for ties). -/
def insertDesc (p : List Char × Nat) : List (List Char × Nat) → List (List Char × Nat)
  | [] => [p]
  | q :: qs => if q.2 < p.2 then p :: q :: qs else q :: insertDesc p qs

/-- Stable insertion sort by descending count (`ORDER BY quote_count DESC`;
MySQL leaves the relative order of equal counts unspecified — the model
keeps first-appearance order). -/
def sortDesc : List (List Char × Nat) → List (List Char × Nat)
  | [] => []
  | p :: ps => insertDesc p (sortDesc ps)

/-- The `top5_authors` aggregate: `FROM author a JOIN quote q`, group by
author name, count quotes, order by count descending, `LIMIT 5`. -/
def top5Rows (db : MySQLDB) : List Row :=
  let pairs := db.authors.flatMap fun a =>
    db.quotes.filterMap fun q =>
      if q.author_id = some a.id_author then some (a, q) else none
  let names := firstOccur [] (pairs.map fun p => p.1.name)
  let counted := names.map fun nm =>
    (nm, (pairs.filter fun p => p.1.name = nm).length)
  ((sortDesc counted).take 5).map fun p =>
    [("name", Val.s p.1), ("quote_count", Val.i (p.2 : Int))]

/-- `ModelQueries.run_model(query_case, value)`: the dispatcher's
`match query_case` over the ten recognized operation tags, with the
catch-all `case _: return []`.  `shuffle` is the `ORDER BY RAND()` oracle
(see `applyPerm`); `value` is the optional Python argument, absent (`none`),
a string (`Val.s`) or an integer (`Val.i`).  A non-string value where the
SQL compares against a string behaves as SQL `NULL` (zero rows matched); a
non-integer or negative `LIMIT` parameter is a statement error, which
`sql_query` turns into the `None` sentinel. -/
def run_model (db : MySQLDB) (shuffle : List Nat) (query_case : String)
    (value : Option Val) : Except PyErr RunOut :=
  match query_case with
  | "quotes_by_author" =>
    .ok (.single (match value with
      | some (.s nm) => Quote.fetch_by_author db nm
      | _ => if db.connFail then none else some []))
  | "x_quotes" =>
    .ok (.single (if db.connFail then none
      else match value with
        | some (.i n) =>
          if 0 ≤ n then some ((applyPerm shuffle (quoteAuthorRows db)).take n.toNat)
          else none
        | _ => none))
  | "random_quote" =>
    .ok (.single (if db.connFail then none
      else some ((applyPerm shuffle (quoteAuthorRows db)).take 1)))
  | "total_quotes" =>
    .ok (.single (if db.connFail then none
      else some [[("total_quotes", Val.i (db.quotes.length : Int))]]))
  | "quotes_by_tag" =>
    .ok (.single (match value with
      | some (.s tg) => Quote.fetch_by_tag db tg
      | _ => if db.connFail then none else some []))
  | "top5_authors" =>
    .ok (.single (if db.connFail then none else some (top5Rows db)))
  | "comments_random_quote" =>
    let rand_id := if db.connFail then none
      else some ((applyPerm shuffle db.quotes).take 1 |>.map fun q =>
        [("id_quote", Val.i q.id_quote)])
    match rand_id with
    | none => .error .typeError
    | some [] => .error .indexError
    | some (r :: _) =>
      match lookupRow r "id_quote" with
      | some (.i v) =>
        let random_quote := Quote.fetch_by_id db v
        let results := db.runSelect
          (chars "SELECT title, details, user_email FROM comment WHERE quote_id = %s")
          [.i v]
          (db.comments.filterMap fun c =>
            if c.quote_id = v then some (commentRow c) else none)
        .ok (.pair results random_quote)
      | _ => .error .keyError
  | "author_bio" =>
    .ok (.single (match value with
      | some (.s nm) => Author.fetch_by_name db nm
      | _ => if db.connFail then none else some []))
  | "all_quotes" => .ok (.single (Quote.fetch_all db))
  | "metadata" =>
    .ok (.single (match value with
      | some (.s k) => Metadata.fetch_by_key_name db k
      | _ => if db.connFail then none else some []))
  | _ => .ok (.single (some []))

/-- The closed set of operation tags the dispatcher recognizes. -/
def recognizedOps : List String :=
  ["quotes_by_author", "x_quotes", "random_quote", "total_quotes",
   "quotes_by_tag", "top5_authors", "comments_random_quote",
   "author_bio", "all_quotes", "metadata"]

/-! ### Concrete fixtures used by witnesses and counterexamples -/

/-- A sample in-memory quote record. -/
def sampleQuote : Quote := ⟨none, chars "Stay hungry", some 1, [chars "life"]⟩

/-- A sample in-memory author record. -/
def sampleAuthor : Author :=
  ⟨none, chars "Maya", ⟨1928, 4, 4⟩, none, none, none, chars "poet"⟩

/-- A sample in-memory comment record. -/
def sampleComment : Comment :=
  ⟨none, 1, chars "nice", chars "very nice", chars "a@b.com"⟩

/-- A sample in-memory metadata record. -/
def sampleMetadata : Metadata := ⟨none, chars "all_tags", [chars "life"]⟩

/-- An author row used by several database fixtures. -/
def annAuthor : AuthorRow :=
  ⟨1, chars "Ann", ⟨1980, 1, 1⟩, none, none, none, chars "writer"⟩

/-- Database with one quote by "Albert Einstein". -/
def dbEinstein : MySQLDB :=
  { quotes := [⟨1, chars "Imagination rules", some 1, chars "science"⟩],
    authors := [⟨1, chars "Albert Einstein", ⟨1879, 3, 14⟩, none, none, none,
                 chars "physicist"⟩],
    comments := [], metadata := [], connFail := false }

/-- The quote row tagged `"Travel"` (capital T). -/
def travelCaseQuote : QuoteRow := ⟨1, chars "Wander often", some 1, chars "Travel"⟩

/-- Database with one quote whose serialized tag string is `"Travel"`. -/
def dbTravelCase : MySQLDB :=
  { quotes := [travelCaseQuote], authors := [annAuthor],
    comments := [], metadata := [], connFail := false }

/-- Database with quotes tagged `"travel"` and `"travel-logs"`. -/
def dbTravelBoth : MySQLDB :=
  { quotes := [⟨1, chars "Go", some 1, chars "travel"⟩,
               ⟨2, chars "Write", some 1, chars "travel-logs"⟩],
    authors := [annAuthor], comments := [], metadata := [], connFail := false }

/-- Database whose only quote has a NULL author reference. -/
def dbNoAuthor : MySQLDB :=
  { quotes := [⟨1, chars "Orphan", none, chars "t"⟩], authors := [],
    comments := [], metadata := [], connFail := false }

/-- Database with all four tables empty and a healthy connection. -/
def dbEmpty : MySQLDB :=
  { quotes := [], authors := [], comments := [], metadata := [], connFail := false }

/-- Database state whose connection attempts fail. -/
def dbFail : MySQLDB :=
  { quotes := [⟨1, chars "Hidden", some 1, chars "x"⟩], authors := [annAuthor],
    comments := [], metadata := [], connFail := true }

lemma applyPerm_nil {α : Type} (perm : List Nat) : applyPerm perm ([] : List α) = [] := by
  induction perm with
  | nil => rfl
  | cons i rest ih => simpa [applyPerm] using ih

/-! ### Claims -/

/-- C2: for every statement and parameter tuple, when the driver raises any
driver-level `Error`, `sql_execute` returns the sentinel `(None, None)` and
`sql_query` returns the sentinel `None`.  Both are total functions of the
driver outcome — the `except Error` arms are exhaustive — so neither call
propagates an exception to the caller. -/
theorem c2_driver_error_sentinel (sql : List Char) (val : List Val) (e : List Char) :
    sql_execute sql val (.err e) = (none, none) ∧
    sql_query sql val (.err e) = none :=
  ⟨rfl, rfl⟩

/-- C10: with the table already present and `overwrite = False` (and no
driver error) `create_table` runs its bare `return`, yielding Python `None`
— not `True` — while `create_database` returns `True` in the analogous
already-exists branch; under Python truthiness the `create_table` success
path is falsy. -/
theorem c10_create_table_bare_return (table_name sql_code : List Char) :
    create_table table_name sql_code true false false false = none ∧
    create_database true false false false = some true ∧
    truthy (create_table table_name sql_code true false false false) = false ∧
    truthy (create_database true false false false) = true :=
  ⟨rfl, rfl, rfl, rfl⟩

/-- C7: an operation name outside the ten recognized tags falls through to
the dispatcher's `case _` and returns the empty sequence as a normal result
— never an exception — for every database state, randomness oracle and
optional value. -/
theorem c7_unknown_op_empty (db : MySQLDB) (shuffle : List Nat)
    (op : String) (value : Option Val) (h : op ∉ recognizedOps) :
    run_model db shuffle op value = .ok (.single (some [])) := by
  simp only [recognizedOps, List.mem_cons, List.not_mem_nil, or_false, not_or] at h
  obtain ⟨h1, h2, h3, h4, h5, h6, h7, h8, h9, h10⟩ := h
  unfold run_model
  split <;> first | rfl | simp_all

/-- Witness for C7 at a concrete unknown operation name. -/
theorem c7_unknown_op_empty_witness :
    run_model dbEmpty [] "frobnicate" none = .ok (.single (some [])) :=
  c7_unknown_op_empty dbEmpty [] "frobnicate" none (by decide)

/-- C9: `comments_random_quote` indexes the first element of its first
query's result with no guard: with an empty quote table the query yields
`[]` and `rand_id[0]` raises `IndexError`; when the query returns the
failure sentinel `None`, `None[0]` raises `TypeError`.  Either way the
dispatcher raises instead of returning a sentinel or empty result. -/
theorem c9_comments_random_quote_raises (db : MySQLDB) (shuffle : List Nat)
    (value : Option Val) :
    (db.quotes = [] → db.connFail = false →
      run_model db shuffle "comments_random_quote" value = .error .indexError) ∧
    (db.connFail = true →
      run_model db shuffle "comments_random_quote" value = .error .typeError) := by
  constructor
  · intro hq hc
    simp [run_model, hq, hc, applyPerm_nil]
  · intro hc
    simp [run_model, hc]

/-- Witness for C9: the empty database raises IndexError, the failed
connection raises TypeError. -/
theorem c9_comments_random_quote_raises_witness :
    run_model dbEmpty [] "comments_random_quote" none = .error .indexError ∧
    run_model dbFail [] "comments_random_quote" none = .error .typeError :=
  ⟨(c9_comments_random_quote_raises dbEmpty [] none).1 rfl rfl,
   (c9_comments_random_quote_raises dbFail [] none).2 rfl⟩

/-- C3: each record type's `db_save` returns exactly the
`(rowcount, lastrowid)` pair produced by the Connection Manager, and
assigns the server-assigned last-insert id to the record's own id field
precisely when `lastrowid` is non-`None` and non-zero (Python truthiness of
`if lastrowid:`); on a driver error — the `(None, None)` sentinel — or a
zero id, the record is returned unchanged. -/
theorem c3_db_save (q : Quote) (a : Author) (c : Comment) (m : Metadata)
    (d : DriverResult (Int × Int)) :
    (∀ e, d = .err e →
      Quote.db_save q d = (q, (none, none)) ∧
      Author.db_save a d = (a, (none, none)) ∧
      Comment.db_save c d = (c, (none, none)) ∧
      Metadata.db_save m d = (m, (none, none))) ∧
    (∀ rc lid, d = .ok (rc, lid) →
      (lid ≠ 0 →
        Quote.db_save q d = ({ q with id_quote := some lid }, (some rc, some lid)) ∧
        Author.db_save a d = ({ a with id_author := some lid }, (some rc, some lid)) ∧
        Comment.db_save c d = ({ c with id_comment := some lid }, (some rc, some lid)) ∧
        Metadata.db_save m d = ({ m with id_key := some lid }, (some rc, some lid))) ∧
      (lid = 0 →
        Quote.db_save q d = (q, (some rc, some lid)) ∧
        Author.db_save a d = (a, (some rc, some lid)) ∧
        Comment.db_save c d = (c, (some rc, some lid)) ∧
        Metadata.db_save m d = (m, (some rc, some lid)))) := by
  constructor
  · rintro e rfl
    simp [Quote.db_save, Author.db_save, Comment.db_save, Metadata.db_save,
      sql_execute, truthyOptInt]
  · rintro rc lid rfl
    constructor
    · intro hlid
      simp [Quote.db_save, Author.db_save, Comment.db_save, Metadata.db_save,
        sql_execute, truthyOptInt, hlid]
    · rintro rfl
      simp [Quote.db_save, Author.db_save, Comment.db_save, Metadata.db_save,
        sql_execute, truthyOptInt]

/-- Witness for C3: a successful insert with last-insert id 5 mutates the
id field; a driver error leaves the record untouched. -/
theorem c3_db_save_witness :
    Quote.db_save sampleQuote (.ok (1, 5)) =
      ({ sampleQuote with id_quote := some 5 }, (some 1, some 5)) ∧
    Comment.db_save sampleComment (.err (chars "boom")) =
      (sampleComment, (none, none)) :=
  ⟨(((c3_db_save sampleQuote sampleAuthor sampleComment sampleMetadata
        (.ok (1, 5))).2 1 5 rfl).1 (by decide)).1,
   ((c3_db_save sampleQuote sampleAuthor sampleComment sampleMetadata
        (.err (chars "boom"))).1 _ rfl).2.2.1⟩

/-- C4 counterexample: for the empty tag list, joining gives `""` and
splitting `""` on `", "` gives `[""]`, not `[]` — so the claimed
equivalence (round-trip iff no tag contains `", "`) is false at `[]`,
where the right side holds vacuously but the round-trip fails. -/
theorem c4_roundtrip_counterexample :
    ¬ ((splitCS (joinTags ([] : List (List Char))) = ([] : List (List Char))) ↔
      ∀ t ∈ ([] : List (List Char)), ¬ sepCS <:+: t) := by
  decide

/-- C4 (amended): splitting the `", "`-join returns the original tag list
if and only if the list is non-empty and no tag contains `", "` as a
substring; and the serialized tags value stored for `["a","b"]` is the
string `"a, b"`. -/
theorem c4_roundtrip (L : List (List Char)) :
    (splitCS (joinTags L) = L ↔ (L ≠ [] ∧ ∀ t ∈ L, ¬ sepCS <:+: t)) ∧
    joinTags [chars "a", chars "b"] = chars "a, b" :=
  ⟨splitCS_joinTags L, by decide⟩

/-- Witness for C4 at the list `["a","b"]`: the round-trip holds. -/
theorem c4_roundtrip_witness :
    splitCS (joinTags [chars "a", chars "b"]) = [chars "a", chars "b"] :=
  (c4_roundtrip [chars "a", chars "b"]).1.mpr (by decide)

lemma posOk_iff (o : Option Int) : posOk o = true ↔ ∀ n, o = some n → 0 < n := by
  cases o <;> simp [posOk]

/-- C5 counterexample: pydantic `str` fields carry no non-emptiness
constraint — a `Quote` whose required `content` is the empty string
constructs successfully, contradicting the claim that construction fails
whenever a required text field is empty. -/
theorem c5_construct_counterexample :
    Quote.construct none (chars "") none [] = some ⟨none, chars "", none, []⟩ ∧
    (chars "").isEmpty = true :=
  ⟨rfl, rfl⟩

/-- C5 (amended): construction succeeds exactly when the constraints the
models actually declare hold — id fields positive when present,
`Comment.quote_id` positive, `Comment.user_email` accepted by the email
validator; text fields are unconstrained, so empty strings are accepted. -/
theorem c5_construct (iq ia ia2 ic ik : Option Int) (content : List Char)
    (tags : List (List Char)) (nm : List Char) (bd : PyDate)
    (bc bs bo : Option (List Char)) (desc : List Char) (qid : Int)
    (title details email : List Char) (kn : List Char) (kv : List (List Char)) :
    ((Quote.construct iq content ia tags).isSome = true ↔
      ((∀ n, iq = some n → 0 < n) ∧ (∀ n, ia = some n → 0 < n))) ∧
    ((Author.construct ia2 nm bd bc bs bo desc).isSome = true ↔
      (∀ n, ia2 = some n → 0 < n)) ∧
    ((Comment.construct ic qid title details email).isSome = true ↔
      ((∀ n, ic = some n → 0 < n) ∧ 0 < qid ∧ emailOk email = true)) ∧
    ((Metadata.construct ik kn kv).isSome = true ↔ (∀ n, ik = some n → 0 < n)) := by
  have hq : (Quote.construct iq content ia tags).isSome = (posOk iq && posOk ia) := by
    rw [Quote.construct]; split <;> simp_all
  have ha : (Author.construct ia2 nm bd bc bs bo desc).isSome = posOk ia2 := by
    rw [Author.construct]; split <;> simp_all
  have hc : (Comment.construct ic qid title details email).isSome =
      (posOk ic && posOk (some qid) && emailOk email) := by
    rw [Comment.construct]; split <;> simp_all
  have hm : (Metadata.construct ik kn kv).isSome = posOk ik := by
    rw [Metadata.construct]; split <;> simp_all
  have hqid : posOk (some qid) = true ↔ 0 < qid := by simp [posOk]
  refine ⟨?_, ?_, ?_, ?_⟩
  · rw [hq, Bool.and_eq_true, posOk_iff, posOk_iff]
  · rw [ha, posOk_iff]
  · rw [hc, Bool.and_eq_true, Bool.and_eq_true, posOk_iff, hqid, and_assoc]
  · rw [hm, posOk_iff]

/-- Witness for C5: a malformed email fails, a non-positive id fails, a
well-formed comment constructs. -/
theorem c5_construct_witness :
    Comment.construct none 1 (chars "t") (chars "d") (chars "no-at-sign") = none ∧
    Quote.construct (some (-1)) (chars "c") none [] = none ∧
    (Comment.construct none 1 (chars "t") (chars "d") (chars "a@b.com")).isSome = true := by
  refine ⟨?_, ?_, ?_⟩
  · have h := (c5_construct none none none none none (chars "c") [] (chars "n")
      ⟨1, 1, 1⟩ none none none (chars "de") 1 (chars "t") (chars "d")
      (chars "no-at-sign") (chars "k") []).2.2.1
    exact Option.not_isSome_iff_eq_none.mp fun hs =>
      absurd (h.mp hs).2.2 (by decide)
  · have h := (c5_construct (some (-1)) none none none none (chars "c") [] (chars "n")
      ⟨1, 1, 1⟩ none none none (chars "de") 1 (chars "t") (chars "d")
      (chars "e") (chars "k") []).1
    exact Option.not_isSome_iff_eq_none.mp fun hs =>
      absurd ((h.mp hs).1 (-1) rfl) (by decide)
  · have h := (c5_construct none none none none none (chars "c") [] (chars "n")
      ⟨1, 1, 1⟩ none none none (chars "de") 1 (chars "t") (chars "d")
      (chars "a@b.com") (chars "k") []).2.2.1
    exact h.mpr ⟨fun n hn => Option.noConfusion hn, by decide, by decide⟩

lemma mem_quoteAuthorPairs (db : MySQLDB) (q : QuoteRow) (a : AuthorRow) :
    (q, a) ∈ quoteAuthorPairs db ↔
      q ∈ db.quotes ∧ a ∈ db.authors ∧ q.author_id = some a.id_author := by
  simp only [quoteAuthorPairs, List.mem_flatMap, List.mem_filterMap]
  constructor
  · rintro ⟨q', hq', a', ha', hif⟩
    by_cases hcond : q'.author_id = some a'.id_author
    · rw [if_pos hcond] at hif
      simp only [Option.some.injEq, Prod.mk.injEq] at hif
      obtain ⟨rfl, rfl⟩ := hif
      exact ⟨hq', ha', hcond⟩
    · rw [if_neg hcond] at hif
      cases hif
  · rintro ⟨h1, h2, h3⟩
    exact ⟨q, h1, a, h2, by rw [if_pos h3]⟩

/-- C1 counterexample: `fetch_by_author` passes the name to `LIKE` with no
`%` wildcards, so the value `"Einstein"` — a substring of the stored author
name `"Albert Einstein"` — matches nothing and the dispatcher returns the
empty list, contradicting the claimed substring semantics. -/
theorem c1_substring_counterexample :
    run_model dbEinstein [] "quotes_by_author" (some (.s (chars "Einstein"))) =
      .ok (.single (some [])) ∧
    chars "Einstein" <:+: chars "Albert Einstein" := by
  exact ⟨rfl, by decide⟩

/-- C1 (amended): for a wildcard-free author-name value, the dispatcher
operation `quotes_by_author` returns exactly the joined quote+author
projections whose author's name is case-insensitively *equal* to the value
(a `LIKE` with the raw value: exact match up to collation, not substring). -/
theorem c1_author_exact_match (db : MySQLDB) (shuffle : List Nat) (nm : List Char)
    (hplain : plainPat nm) (hconn : db.connFail = false) :
    ∃ rows, run_model db shuffle "quotes_by_author" (some (.s nm)) =
        .ok (.single (some rows)) ∧
      ∀ r, r ∈ rows ↔ ∃ q a, q ∈ db.quotes ∧ a ∈ db.authors ∧
        q.author_id = some a.id_author ∧ ciEq nm a.name ∧ r = qaRow q a := by
  refine ⟨(quoteAuthorPairs db).filterMap fun p =>
      if likeMatch nm p.2.name then some (qaRow p.1 p.2) else none, ?_, ?_⟩
  · simp [run_model, Quote.fetch_by_author, MySQLDB.runSelect, sql_query, hconn]
  · intro r
    simp only [List.mem_filterMap]
    constructor
    · rintro ⟨⟨q, a⟩, hmem, hif⟩
      obtain ⟨h1, h2, h3⟩ := (mem_quoteAuthorPairs db q a).mp hmem
      by_cases hlm : likeMatch nm a.name = true
      · rw [if_pos hlm] at hif
        exact ⟨q, a, h1, h2, h3, (likeMatch_plain nm hplain a.name).mp hlm,
          (Option.some.inj hif).symm⟩
      · rw [if_neg hlm] at hif
        cases hif
    · rintro ⟨q, a, h1, h2, h3, hci, rfl⟩
      refine ⟨(q, a), (mem_quoteAuthorPairs db q a).mpr ⟨h1, h2, h3⟩, ?_⟩
      rw [if_pos ((likeMatch_plain nm hplain a.name).mpr hci)]

/-- Witness for C1 at the Einstein fixture, with a value differing from the
stored name only in letter case. -/
theorem c1_author_exact_match_witness :
    ∃ rows, run_model dbEinstein [] "quotes_by_author"
        (some (.s (chars "albert einstein"))) = .ok (.single (some rows)) ∧
      ∀ r, r ∈ rows ↔ ∃ q a, q ∈ dbEinstein.quotes ∧ a ∈ dbEinstein.authors ∧
        q.author_id = some a.id_author ∧ ciEq (chars "albert einstein") a.name ∧
        r = qaRow q a :=
  c1_author_exact_match dbEinstein [] (chars "albert einstein") (by decide) rfl

/-- C6 counterexample: the tag query is case-insensitive (collation), so a
quote whose serialized tag string is `"Travel"` is returned for the value
`"travel"` even though `"travel"` is not a substring of `"Travel"` — the
claimed "exactly the quotes whose serialized tags contain t as a substring"
fails. -/
theorem c6_substring_counterexample :
    run_model dbTravelCase [] "quotes_by_tag" (some (.s (chars "travel"))) =
      .ok (.single (some [qaRow travelCaseQuote annAuthor])) ∧
    ¬ chars "travel" <:+: chars "Travel" := by
  exact ⟨rfl, by decide⟩

/-- C6 (amended): for a wildcard-free tag value, the dispatcher operation
`quotes_by_tag` returns exactly the joined quote+author projections whose
serialized tag string contains the value as a case-insensitive substring —
in particular a quote tagged `"travel-logs"` is returned for `"travel"`
(the substring false-positive is the implemented behaviour). -/
theorem c6_tag_substring_match (db : MySQLDB) (shuffle : List Nat) (tg : List Char)
    (hplain : plainPat tg) (hconn : db.connFail = false) :
    ∃ rows, run_model db shuffle "quotes_by_tag" (some (.s tg)) =
        .ok (.single (some rows)) ∧
      ∀ r, r ∈ rows ↔ ∃ q a, q ∈ db.quotes ∧ a ∈ db.authors ∧
        q.author_id = some a.id_author ∧ ciInfix tg q.tags ∧ r = qaRow q a := by
  refine ⟨(quoteAuthorPairs db).filterMap fun p =>
      if likeMatch ('%' :: (tg ++ ['%'])) p.1.tags then some (qaRow p.1 p.2) else none,
      ?_, ?_⟩
  · simp [run_model, Quote.fetch_by_tag, MySQLDB.runSelect, sql_query, hconn]
  · intro r
    simp only [List.mem_filterMap]
    constructor
    · rintro ⟨⟨q, a⟩, hmem, hif⟩
      obtain ⟨h1, h2, h3⟩ := (mem_quoteAuthorPairs db q a).mp hmem
      by_cases hlm : likeMatch ('%' :: (tg ++ ['%'])) q.tags = true
      · rw [if_pos hlm] at hif
        exact ⟨q, a, h1, h2, h3, (likeMatch_wrap tg hplain q.tags).mp hlm,
          (Option.some.inj hif).symm⟩
      · rw [if_neg hlm] at hif
        cases hif
    · rintro ⟨q, a, h1, h2, h3, hci, rfl⟩
      refine ⟨(q, a), (mem_quoteAuthorPairs db q a).mpr ⟨h1, h2, h3⟩, ?_⟩
      rw [if_pos ((likeMatch_wrap tg hplain q.tags).mpr hci)]

/-- Witness for C6 at a database holding quotes tagged `"travel"` and
`"travel-logs"`, queried with `"travel"`. -/
theorem c6_tag_substring_match_witness :
    ∃ rows, run_model dbTravelBoth [] "quotes_by_tag"
        (some (.s (chars "travel"))) = .ok (.single (some rows)) ∧
      ∀ r, r ∈ rows ↔ ∃ q a, q ∈ dbTravelBoth.quotes ∧ a ∈ dbTravelBoth.authors ∧
        q.author_id = some a.id_author ∧ ciInfix (chars "travel") q.tags ∧
        r = qaRow q a :=
  c6_tag_substring_match dbTravelBoth [] (chars "travel") (by decide) rfl

lemma range_filterMap_getElem {α : Type} (xs : List α) :
    (List.range xs.length).filterMap (fun i => xs[i]?) = xs := by
  induction xs with
  | nil => rfl
  | cons x xs ih =>
    rw [List.length_cons, List.range_succ_eq_map, List.filterMap_cons]
    simp only [List.getElem?_cons_zero, List.filterMap_map]
    have hcomp : (fun i => (x :: xs)[i]?) ∘ Nat.succ = fun i => xs[i]? := by
      funext i
      simp
    rw [hcomp, ih]

lemma applyPerm_perm {α : Type} (perm : List Nat) (xs : List α)
    (h : perm.Perm (List.range xs.length)) : (applyPerm perm xs).Perm xs := by
  have hp := h.filterMap (fun i => xs[i]?)
  rwa [range_filterMap_getElem] at hp

lemma sum_map_one {α : Type} (l : List α) (g : α → Nat) (h : ∀ x ∈ l, g x = 1) :
    (l.map g).sum = l.length := by
  induction l with
  | nil => rfl
  | cons x xs ih =>
    rw [List.map_cons, List.sum_cons, h x (List.mem_cons_self _ _),
      ih fun y hy => h y (List.mem_cons_of_mem _ hy), List.length_cons]
    omega

lemma length_filterMap_author (l : List AuthorRow) (q : QuoteRow) (i : Int)
    (hq : q.author_id = some i)
    (hnd : (l.map AuthorRow.id_author).Nodup)
    (hex : ∃ a ∈ l, a.id_author = i) :
    (l.filterMap fun a =>
      if q.author_id = some a.id_author then some (q, a) else none).length = 1 := by
  induction l with
  | nil => rcases hex with ⟨a, ha, _⟩; cases ha
  | cons a0 l' ih =>
    simp only [List.map_cons, List.nodup_cons, List.mem_map] at hnd
    by_cases h0 : a0.id_author = i
    · have hcond : (if q.author_id = some a0.id_author then some (q, a0) else none)
          = some (q, a0) := by
        rw [hq, h0]
        simp
      rw [List.filterMap_cons, hcond]
      have hnone : ∀ a ∈ l',
          (if q.author_id = some a.id_author then some (q, a) else none) = none := by
        intro a ha
        have hne : a.id_author ≠ i := by
          intro hai
          exact hnd.1 ⟨a, ha, by rw [hai, ← h0]⟩
        rw [hq]
        simp only [Option.some.injEq, ite_eq_right_iff]
        intro hii
        exact absurd hii.symm hne
      rw [List.filterMap_eq_nil_iff.mpr hnone]
      rfl
    · have hcond : (if q.author_id = some a0.id_author then some (q, a0) else none)
          = none := by
        rw [hq]
        simp only [Option.some.injEq, ite_eq_right_iff]
        intro hii
        exact absurd hii.symm h0
      rw [List.filterMap_cons, hcond]
      refine ih hnd.2 ?_
      rcases hex with ⟨a, ha, hai⟩
      rcases List.mem_cons.mp ha with rfl | ha'
      · exact absurd hai h0
      · exact ⟨a, ha', hai⟩

/-- Under referential integrity (author ids unique, every quote referencing
an existing author) the quote/author join has exactly one row per quote. -/
lemma quoteAuthorRows_length_integrity (db : MySQLDB)
    (hnd : (db.authors.map AuthorRow.id_author).Nodup)
    (href : ∀ q ∈ db.quotes, ∃ a ∈ db.authors, q.author_id = some a.id_author) :
    (quoteAuthorRows db).length = db.quotes.length := by
  rw [quoteAuthorRows, List.length_map, quoteAuthorPairs, List.length_flatMap]
  refine sum_map_one _ _ ?_
  intro q hq
  obtain ⟨a, ha, hia⟩ := href q hq
  exact length_filterMap_author db.authors q a.id_author hia hnd ⟨a, ha, rfl⟩

/-- C8 counterexample: `x_quotes` counts rows of the quote–author join, not
of the quote table — a quote with a NULL author reference is dropped by the
JOIN, so with one quote row and `n = 1` the dispatcher returns zero rows
instead of the claimed `min(1, 1) = 1`. -/
theorem c8_join_counterexample :
    run_model dbNoAuthor [] "x_quotes" (some (.i 1)) = .ok (.single (some [])) ∧
    dbNoAuthor.quotes.length = 1 ∧
    (quoteAuthorRows dbNoAuthor).length = 0 := by
  exact ⟨rfl, rfl, rfl⟩

/-- C8 (amended): with a healthy connection, a non-negative `n` and the
server's random ordering being a permutation of the joined rows, `x_quotes`
returns exactly `min(n, number of joined quote rows)` rows: `x_quotes(0)`
is empty and `n` beyond the row count returns all joined rows without
error; when every quote references an existing author (unique author ids),
the joined row count equals the quote-table row count, recovering the
original claim. -/
theorem c8_x_quotes_limit (db : MySQLDB) (shuffle : List Nat) (n : Int)
    (hconn : db.connFail = false) (hn : 0 ≤ n)
    (hperm : shuffle.Perm (List.range (quoteAuthorRows db).length)) :
    ∃ rows, run_model db shuffle "x_quotes" (some (.i n)) =
        .ok (.single (some rows)) ∧
      rows.length = min n.toNat (quoteAuthorRows db).length ∧
      ((quoteAuthorRows db).length ≤ n.toNat → rows.Perm (quoteAuthorRows db)) ∧
      (n = 0 → rows = []) ∧
      (((db.authors.map AuthorRow.id_author).Nodup ∧
          ∀ q ∈ db.quotes, ∃ a ∈ db.authors, q.author_id = some a.id_author) →
        (quoteAuthorRows db).length = db.quotes.length) := by
  refine ⟨(applyPerm shuffle (quoteAuthorRows db)).take n.toNat, ?_, ?_, ?_, ?_, ?_⟩
  · simp [run_model, hconn, hn]
  · rw [List.length_take, (applyPerm_perm shuffle _ hperm).length_eq]
  · intro hle
    rw [List.take_of_length_le
      (by rw [(applyPerm_perm shuffle _ hperm).length_eq]; exact hle)]
    exact applyPerm_perm shuffle _ hperm
  · rintro rfl
    simp
  · rintro ⟨hnd, href⟩
    exact quoteAuthorRows_length_integrity db hnd href

/-- Witness for C8: two joined rows, `n = 5`, the oracle `[1, 0]`;
the dispatcher returns both rows. -/
theorem c8_x_quotes_limit_witness :
    ∃ rows, run_model dbTravelBoth [1, 0] "x_quotes" (some (.i 5)) =
        .ok (.single (some rows)) ∧ rows.length = 2 := by
  obtain ⟨rows, h1, h2, _, _, _⟩ :=
    c8_x_quotes_limit dbTravelBoth [1, 0] 5 rfl (by decide) (by decide)
  refine ⟨rows, h1, ?_⟩
  rw [h2]
  decide
